import Mathlib

/-!
# Verification of the device lifecycle entry point (`src/main.ts`, function `run`)

This file shallowly embeds the control flow of the `run()` function of
`src/main.ts` (the GitHub Action entry point of android-emulator-runner) and
proves trace properties about it.

Modelling choices:

* `run()` is a single-threaded async function; every `await` is sequential,
  so the whole function is modelled as a pure function from an environment of
  collaborator oracles to the ordered list of observable calls it makes
  (its trace of `Event`s).
* The collaborators (`input-validator` checks, `installAndroidSdk`,
  `launchEmulator`, `killEmulator`, `parseScript`, `getChannelId`,
  `core.getInput`, `exec.exec`) live in modules that are not part of the
  analysed source; they are modelled as oracle fields of `Env`.  An oracle
  returning `some msg` means the corresponding JavaScript call throws an
  error whose `.message` is `msg`; `none` means it returns normally.
* Modelled from the spec: `killEmulator` (Process Terminator,
  `emulator-manager.ts`, not in the analysed sources) "never fails the run"
  (spec §4.5), so it is modelled as an event that always returns normally.
  Likewise `core.getInput` and `process.chdir` are modelled as total.
* `core.setFailed` marks the action run as failed (non-zero status); it is
  recorded as an event, and "the run status is non-zero" is read as
  "a `setFailed` event occurs in the trace".
* JavaScript string formatting of `Number(apiLevelInput)` and of the channel
  id in `console.log` payloads is abstracted to the raw input string /
  `toString` of the mapped id; no claim depends on log payload formatting.
-/

namespace AER

/-- An observable step taken by `run()`: a console line, an input read, a
validator call, a collaborator call, or a process-level action.  The payload
of `check` is the argument string the validator was applied to. -/
inductive Event where
  | warn (msg : String)
  | log (msg : String)
  | input (name : String)
  | check (name : String) (arg : String)
  | installSdk
  | launchEmu
  | chdir (dir : String)
  | exec (tool : String) (args : List String)
  | killEmu
  | setFailed (msg : String)
deriving DecidableEq, Repr

/-- The environment of collaborator oracles consumed by `run()`.  Each
`check*` field models the validator of the same name from
`input-validator.ts`: `some msg` means the check throws with message `msg`.
`installAndroidSdk` / `launchEmulator` similarly model whether those awaited
calls reject.  `execExec` models `exec.exec('sh', ['-c', cmd])` per command
string.  `parseScript` models `parseScript` from `script-parser.ts` and
`getChannelId` models `channel-id-mapper.ts`. -/
structure Env where
  platform : String
  getInput : String → String
  checkApiLevel : String → Option String
  checkTarget : String → Option String
  checkArch : String → Option String
  checkForceAvdCreation : String → Option String
  checkDisableAnimations : String → Option String
  checkDisableSpellchecker : String → Option String
  checkDisableLinuxHardwareAcceleration : String → Option String
  checkEnableHardwareKeyboard : String → Option String
  checkEmulatorBuild : String → Option String
  checkChannel : String → Option String
  getChannelId : String → Int
  parseScript : String → List String
  installAndroidSdk : Option String
  launchEmulator : Option String
  execExec : String → Option String

/-- JavaScript `input === 'true'` (lines such as
`const forceAvdCreation = forceAvdCreationInput === 'true'`). -/
def jsBool (s : String) : Bool := s == "true"

/-- Line 41 of `main.ts`:
`const target = targetInput == 'playstore' ? 'google_apis_playstore' : targetInput`. -/
def targetOf (env : Env) : String :=
  if env.getInput "target" = "playstore" then "google_apis_playstore" else env.getInput "target"

/-- The parsed script command sequence: `parseScript(core.getInput('script'))`. -/
def scriptsOf (env : Env) : List String :=
  env.parseScript (env.getInput "script")

/-- One straight-line step of the input-reading / validation / logging block of
`run()` (lines 33-145): a console line, a `core.getInput` read, or a validator
invocation carrying the oracle's outcome. -/
inductive Item where
  | logI (msg : String)
  | inputI (name : String)
  | checkI (name : String) (arg : String) (res : Option String)
deriving DecidableEq, Repr

/-- The event an `Item` emits when it is executed. -/
def itemEvent : Item → Event
  | .logI m => .log m
  | .inputI n => .input n
  | .checkI n a _ => .check n a

/-- Execute a straight-line block of items in order.  A `checkI` whose oracle
is `some msg` throws: its call event is still emitted (the validator ran) but
the rest of the block is skipped and the error propagates. -/
def runItems : List Item → List Event × Option String
  | [] => ([], none)
  | .logI m :: rest =>
    let r := runItems rest
    (Event.log m :: r.1, r.2)
  | .inputI n :: rest =>
    let r := runItems rest
    (Event.input n :: r.1, r.2)
  | .checkI n a res :: rest =>
    match res with
    | some msg => ([Event.check n a], some msg)
    | none =>
      let r := runItems rest
      (Event.check n a :: r.1, r.2)

/-- Lines 33-141 of `main.ts`, transcribed in source order: each input is
read, validated where the source validates it, and logged.  `checkEmulatorBuild`
runs only when the `emulator-build` input is non-empty (JS truthiness of the
string), and the `working-directory` / `ndk` / `cmake` log lines are likewise
conditional.  The tail of the block (`console.log('Script:')` and the per-command
logs, lines 142-145) is appended in `configItems` below: the `forEach` callback
is an async arrow function whose body contains no `await`, so by JavaScript
run-to-completion semantics each callback logs synchronously during the
iteration, in sequence order. -/
def configItemsFront (env : Env) : List Item :=
  let api := env.getInput "api-level"
  let target := targetOf env
  let arch := env.getInput "arch"
  let force := env.getInput "force-avd-creation"
  let anim := env.getInput "disable-animations"
  let spell := env.getInput "disable-spellchecker"
  let accel := env.getInput "disable-linux-hw-accel"
  let kbd := env.getInput "enable-hw-keyboard"
  let build := env.getInput "emulator-build"
  let wd := env.getInput "working-directory"
  let ndk := env.getInput "ndk"
  let cmake := env.getInput "cmake"
  let channel := env.getInput "channel"
  [Item.inputI "api-level",
   Item.checkI "checkApiLevel" api (env.checkApiLevel api),
   Item.logI ("API level: " ++ api),
   Item.inputI "target",
   Item.checkI "checkTarget" target (env.checkTarget target),
   Item.logI ("target: " ++ target),
   Item.inputI "arch",
   Item.checkI "checkArch" arch (env.checkArch arch),
   Item.logI ("CPU architecture: " ++ arch),
   Item.inputI "profile",
   Item.logI ("Hardware profile: " ++ env.getInput "profile"),
   Item.inputI "cores",
   Item.logI ("Cores: " ++ env.getInput "cores"),
   Item.inputI "ram-size",
   Item.logI ("RAM size: " ++ env.getInput "ram-size"),
   Item.inputI "sdcard-path-or-size",
   Item.logI ("SD card path or size: " ++ env.getInput "sdcard-path-or-size"),
   Item.inputI "avd-name",
   Item.logI ("AVD name: " ++ env.getInput "avd-name"),
   Item.inputI "force-avd-creation",
   Item.checkI "checkForceAvdCreation" force (env.checkForceAvdCreation force),
   Item.logI ("force avd creation: " ++ toString (jsBool force)),
   Item.inputI "emulator-options",
   Item.logI ("emulator options: " ++ (env.getInput "emulator-options").trim),
   Item.inputI "disable-animations",
   Item.checkI "checkDisableAnimations" anim (env.checkDisableAnimations anim),
   Item.logI ("disable animations: " ++ toString (jsBool anim)),
   Item.inputI "disable-spellchecker",
   Item.checkI "checkDisableSpellchecker" spell (env.checkDisableSpellchecker spell),
   Item.logI ("disable spellchecker: " ++ toString (jsBool spell)),
   Item.inputI "disable-linux-hw-accel",
   Item.checkI "checkDisableLinuxHardwareAcceleration" accel
     (env.checkDisableLinuxHardwareAcceleration accel),
   Item.logI ("disable Linux hardware acceleration: " ++ toString (jsBool accel)),
   Item.inputI "enable-hw-keyboard",
   Item.checkI "checkEnableHardwareKeyboard" kbd (env.checkEnableHardwareKeyboard kbd),
   Item.logI ("enable hardware keyboard: " ++ toString (jsBool kbd)),
   Item.inputI "emulator-build"] ++
  (if build ≠ "" then
    [Item.checkI "checkEmulatorBuild" build (env.checkEmulatorBuild build),
     Item.logI ("using emulator build: " ++ build)]
   else []) ++
  [Item.inputI "working-directory"] ++
  (if wd ≠ "" then [Item.logI ("custom working directory: " ++ wd)] else []) ++
  [Item.inputI "ndk"] ++
  (if ndk ≠ "" then [Item.logI ("version of NDK to install: " ++ ndk)] else []) ++
  [Item.inputI "cmake"] ++
  (if cmake ≠ "" then [Item.logI ("version of CMake to install: " ++ cmake)] else []) ++
  [Item.inputI "channel",
   Item.checkI "checkChannel" channel (env.checkChannel channel),
   Item.logI ("Channel: " ++ toString (env.getChannelId channel) ++ " (" ++ channel ++ ")"),
   Item.inputI "script"]

/-- Lines 33-145 of `main.ts` in full: the straight-line front above, then
`console.log('Script:')` (line 142) and one log per parsed command
(lines 143-145). -/
def configItems (env : Env) : List Item :=
  configItemsFront env ++ Item.logI "Script:" :: (scriptsOf env).map Item.logI

/-- The error message of line 29 of `main.ts`. -/
def unsupportedVmMsg : String :=
  "Unsupported virtual machine: please use either macos or ubuntu VM."

/-- The `console.warn` text of lines 25-27 of `main.ts`. -/
def linuxWarnMsg : String :=
  "You\x27re running a Linux VM where hardware acceleration is not available. Please consider using a macOS VM instead to take advantage of native hardware acceleration support provided by HAXM."

/-- Lines 22-31 of `main.ts`: the platform gate.  On `darwin` nothing happens;
on `linux` a warning is printed; on anything else the
`Unsupported virtual machine` error is thrown before any input is read. -/
def platformStage (env : Env) : List Event × Option String :=
  if env.platform = "darwin" then ([], none)
  else if env.platform = "linux" then ([Event.warn linuxWarnMsg], none)
  else ([], some unsupportedVmMsg)

/-- Sequence two stages: if the first throws, the second never runs. -/
def andThen : List Event × Option String → List Event × Option String → List Event × Option String
  | (evs, some e), _ => (evs, some e)
  | (evs, none), (evs2, r) => (evs ++ evs2, r)

/-- Lines 174-178 of `main.ts`: run the parsed commands in order, each via
`exec.exec('sh', ['-c', script])`.  The first command whose oracle throws is
still invoked (its call event appears), and the loop stops there; the
surrounding `catch` (lines 179-181) converts the error into a single
`core.setFailed(error.message)` and swallows it. -/
def execScripts (env : Env) : List String → List Event
  | [] => []
  | c :: rest =>
    match env.execExec c with
    | none => Event.exec "sh" ["-c", c] :: execScripts env rest
    | some msg => [Event.exec "sh" ["-c", c], Event.setFailed msg]

/-- Lines 169-181 of `main.ts`: the inner try/catch around the script run,
including the conditional `process.chdir(workingDirectory)`.  It never
propagates an error. -/
def scriptStage (env : Env) : List Event :=
  (if env.getInput "working-directory" ≠ "" then
    [Event.chdir (env.getInput "working-directory")]
   else []) ++
  execScripts env (scriptsOf env)

/-- Lines 22-166 of `main.ts`: platform gate, then input
reading/validation/logging, then `await installAndroidSdk(...)`, then
`await launchEmulator(...)`.  Each awaited collaborator appears in the trace
at its call point even when it throws. -/
def stagePipeline (env : Env) : List Event × Option String :=
  andThen (platformStage env)
    (andThen (runItems (configItems env))
      (andThen ([Event.installSdk], env.installAndroidSdk)
        ([Event.launchEmu], env.launchEmulator)))

/-- The whole body of the outer `try` (lines 21-184): the pipeline, then the
script stage, then the `await killEmulator()` of line 184.  The script stage
cannot throw (its errors are caught at lines 179-181), and `killEmulator` is
modelled from the spec as never failing, so the tail never throws. -/
def mainBody (env : Env) : List Event × Option String :=
  andThen (stagePipeline env) (scriptStage env ++ [Event.killEmu], none)

/-- The full `run()` (lines 20-190): the outer `catch` (lines 185-189) first
`await killEmulator()` and then `core.setFailed(error.message)`. -/
def run (env : Env) : List Event :=
  match mainBody env with
  | (evs, none) => evs
  | (evs, some msg) => evs ++ [Event.killEmu, Event.setFailed msg]

/-- The message of the first script command whose `exec.exec` call throws,
scanning in order; `none` when every command succeeds. -/
def firstScriptError (env : Env) : List String → Option String
  | [] => none
  | c :: rest =>
    match env.execExec c with
    | some msg => some msg
    | none => firstScriptError env rest

/-- Events that the input/validation/logging block (and the platform gate) can
emit: console lines, input reads and validator calls only. -/
def isConfigEvent : Event → Bool
  | .warn _ => true
  | .log _ => true
  | .input _ => true
  | .check _ _ => true
  | _ => false

/-- Validator-call events. -/
def isCheckEv : Event → Bool
  | .check _ _ => true
  | _ => false

/-- Side-effecting component calls in the sense of the spec: SDK
installation, emulator launch, and the script run (including the directory
change that precedes it). -/
def isSideEffect : Event → Bool
  | .installSdk => true
  | .launchEmu => true
  | .chdir _ => true
  | .exec _ _ => true
  | _ => false

/-- `core.setFailed` events. -/
def isSetFailed : Event → Bool
  | .setFailed _ => true
  | _ => false

/-- Events the script stage (lines 169-181) can emit. -/
def isScriptEvent : Event → Bool
  | .chdir _ => true
  | .exec _ _ => true
  | .setFailed _ => true
  | _ => false

/-- A collaborator environment in which every oracle succeeds: macOS host,
all inputs empty, every validator accepts, empty parsed script. -/
def baseEnv : Env where
  platform := "darwin"
  getInput := fun _ => ""
  checkApiLevel := fun _ => none
  checkTarget := fun _ => none
  checkArch := fun _ => none
  checkForceAvdCreation := fun _ => none
  checkDisableAnimations := fun _ => none
  checkDisableSpellchecker := fun _ => none
  checkDisableLinuxHardwareAcceleration := fun _ => none
  checkEnableHardwareKeyboard := fun _ => none
  checkEmulatorBuild := fun _ => none
  checkChannel := fun _ => none
  getChannelId := fun _ => 0
  parseScript := fun _ => []
  installAndroidSdk := none
  launchEmulator := none
  execExec := fun _ => none

/-- An environment whose `checkApiLevel` validator throws. -/
def envBadApi : Env := { baseEnv with checkApiLevel := fun _ => some "invalid api" }

/-- An environment whose script parses to two commands, all oracles succeeding. -/
def envTwoCmds : Env := { baseEnv with parseScript := fun _ => ["a", "b"] }

/-- An environment whose script parses to three commands, the second of which
fails with message `boom`. -/
def envScriptFail : Env :=
  { baseEnv with
    parseScript := fun _ => ["good", "bad", "later"]
    execExec := fun c => if c = "bad" then some "boom" else none }

/-- An environment on an unsupported host platform. -/
def envOtherVm : Env := { baseEnv with platform := "win32" }

lemma andThen_some {r s : List Event × Option String} {m : String} (h : r.2 = some m) :
    andThen r s = r := by
  rcases r with ⟨evs, err⟩
  rcases s with ⟨evs2, err2⟩
  simp only at h
  subst h
  rfl

lemma andThen_none {r s : List Event × Option String} (h : r.2 = none) :
    andThen r s = (r.1 ++ s.1, s.2) := by
  rcases r with ⟨evs, err⟩
  rcases s with ⟨evs2, err2⟩
  simp only at h
  subst h
  rfl

lemma andThen_fst_mem {e : Event} {r s : List Event × Option String}
    (h : e ∈ (andThen r s).1) : e ∈ r.1 ∨ e ∈ s.1 := by
  rcases r with ⟨evs, err⟩
  rcases s with ⟨evs2, err2⟩
  cases err with
  | none => simpa [andThen] using h
  | some m => simp only [andThen] at h; exact Or.inl h

lemma runItems_config_events :
    ∀ (items : List Item), ∀ e ∈ (runItems items).1, isConfigEvent e = true := by
  intro items
  induction items with
  | nil => intro e he; simp [runItems] at he
  | cons hd tl ih =>
    intro e he
    cases hd with
    | logI m =>
      simp only [runItems, List.mem_cons] at he
      rcases he with h | h
      · subst h; rfl
      · exact ih e h
    | inputI n =>
      simp only [runItems, List.mem_cons] at he
      rcases he with h | h
      · subst h; rfl
      · exact ih e h
    | checkI n a res =>
      cases res with
      | some m =>
        simp only [runItems, List.mem_singleton] at he
        subst he; rfl
      | none =>
        simp only [runItems, List.mem_cons] at he
        rcases he with h | h
        · subst h; rfl
        · exact ih e h

lemma runItems_ok_events :
    ∀ (items : List Item), (runItems items).2 = none →
      (runItems items).1 = items.map itemEvent := by
  intro items
  induction items with
  | nil => intro _; rfl
  | cons hd tl ih =>
    intro h
    cases hd with
    | logI m =>
      simp only [runItems] at h ⊢
      simp [itemEvent, ih h]
    | inputI n =>
      simp only [runItems] at h ⊢
      simp [itemEvent, ih h]
    | checkI n a res =>
      cases res with
      | some m => simp [runItems] at h
      | none =>
        simp only [runItems] at h ⊢
        simp [itemEvent, ih h]

lemma platformStage_config_events (env : Env) :
    ∀ e ∈ (platformStage env).1, isConfigEvent e = true := by
  intro e he
  unfold platformStage at he
  split at he
  · simp at he
  · split at he
    · simp only [List.mem_singleton] at he; subst he; rfl
    · simp at he

lemma execScripts_events (env : Env) :
    ∀ (cmds : List String), ∀ e ∈ execScripts env cmds, isScriptEvent e = true := by
  intro cmds
  induction cmds with
  | nil => intro e he; simp [execScripts] at he
  | cons c rest ih =>
    intro e he
    unfold execScripts at he
    split at he
    · rcases List.mem_cons.mp he with h | h
      · subst h; rfl
      · exact ih e h
    · rcases List.mem_cons.mp he with h | h
      · subst h; rfl
      · simp only [List.mem_singleton] at h; subst h; rfl

lemma scriptStage_events (env : Env) :
    ∀ e ∈ scriptStage env, isScriptEvent e = true := by
  intro e he
  unfold scriptStage at he
  rcases List.mem_append.mp he with h | h
  · split at h
    · simp only [List.mem_singleton] at h; subst h; rfl
    · simp at h
  · exact execScripts_events env _ e h

lemma stagePipeline_events (env : Env) :
    ∀ e ∈ (stagePipeline env).1,
      isConfigEvent e = true ∨ e = Event.installSdk ∨ e = Event.launchEmu := by
  intro e he
  unfold stagePipeline at he
  rcases andThen_fst_mem he with h | h
  · exact Or.inl (platformStage_config_events env e h)
  rcases andThen_fst_mem h with h2 | h2
  · exact Or.inl (runItems_config_events _ e h2)
  rcases andThen_fst_mem h2 with h3 | h3
  · simp only [List.mem_singleton] at h3; exact Or.inr (Or.inl h3)
  · simp only [List.mem_singleton] at h3; exact Or.inr (Or.inr h3)

lemma stagePipeline_no_kill (env : Env) : Event.killEmu ∉ (stagePipeline env).1 := by
  intro h
  rcases stagePipeline_events env _ h with h' | h' | h' <;> simp [isConfigEvent] at h'

lemma stagePipeline_no_setFailed (env : Env) :
    ∀ e ∈ (stagePipeline env).1, isSetFailed e = false := by
  intro e he
  rcases stagePipeline_events env e he with h' | h' | h'
  · cases e <;> simp_all [isConfigEvent, isSetFailed]
  · subst h'; rfl
  · subst h'; rfl

lemma scriptStage_no_kill (env : Env) : Event.killEmu ∉ scriptStage env := by
  intro h
  have := scriptStage_events env _ h
  simp [isScriptEvent] at this

lemma run_of_pipeline_err (env : Env) (m : String) (h : (stagePipeline env).2 = some m) :
    run env = (stagePipeline env).1 ++ [Event.killEmu, Event.setFailed m] := by
  unfold run mainBody
  rw [andThen_some h]
  have hx : stagePipeline env = ((stagePipeline env).1, some m) := by
    rw [Prod.ext_iff]; exact ⟨rfl, h⟩
  rw [hx]

lemma run_of_pipeline_ok (env : Env) (h : (stagePipeline env).2 = none) :
    run env = (stagePipeline env).1 ++ (scriptStage env ++ [Event.killEmu]) := by
  unfold run mainBody
  rw [andThen_none h]

lemma stagePipeline_platform_err {env : Env} {m : String}
    (h : (platformStage env).2 = some m) :
    stagePipeline env = ((platformStage env).1, some m) := by
  unfold stagePipeline
  rw [andThen_some h, Prod.ext_iff]
  exact ⟨rfl, h⟩

lemma stagePipeline_config_err {env : Env} {m : String}
    (hp : (platformStage env).2 = none)
    (hc : (runItems (configItems env)).2 = some m) :
    stagePipeline env =
      ((platformStage env).1 ++ (runItems (configItems env)).1, some m) := by
  unfold stagePipeline
  rw [andThen_some hc, andThen_none hp, Prod.ext_iff]
  exact ⟨rfl, hc⟩

lemma stagePipeline_sdk_err {env : Env} {m : String}
    (hp : (platformStage env).2 = none)
    (hc : (runItems (configItems env)).2 = none)
    (hs : env.installAndroidSdk = some m) :
    stagePipeline env =
      ((platformStage env).1 ++ ((runItems (configItems env)).1 ++ [Event.installSdk]),
        some m) := by
  unfold stagePipeline
  have h1 : andThen ([Event.installSdk], env.installAndroidSdk)
      ([Event.launchEmu], env.launchEmulator) = ([Event.installSdk], some m) := by
    rw [andThen_some (show ([Event.installSdk], env.installAndroidSdk).2 = some m from hs),
        Prod.ext_iff]
    exact ⟨rfl, hs⟩
  rw [h1, andThen_none hc, andThen_none hp]

lemma stagePipeline_post_sdk {env : Env}
    (hp : (platformStage env).2 = none)
    (hc : (runItems (configItems env)).2 = none)
    (hs : env.installAndroidSdk = none) :
    stagePipeline env =
      ((platformStage env).1 ++
        ((runItems (configItems env)).1 ++ [Event.installSdk, Event.launchEmu]),
        env.launchEmulator) := by
  unfold stagePipeline
  have h1 : andThen ([Event.installSdk], env.installAndroidSdk)
      ([Event.launchEmu], env.launchEmulator) =
      ([Event.installSdk, Event.launchEmu], env.launchEmulator) := by
    rw [andThen_none (show ([Event.installSdk], env.installAndroidSdk).2 = none from hs)]
    rfl
  rw [h1, andThen_none hc, andThen_none hp]

lemma config_only_not_mem {l : List Event} (hl : ∀ e ∈ l, isConfigEvent e = true)
    {e : Event} (he : isConfigEvent e = false) : e ∉ l := by
  intro h
  rw [hl e h] at he
  cases he

lemma execScripts_ok (env : Env) :
    ∀ (cmds : List String), (∀ c ∈ cmds, env.execExec c = none) →
      execScripts env cmds = cmds.map (fun c => Event.exec "sh" ["-c", c]) := by
  intro cmds
  induction cmds with
  | nil => intro _; rfl
  | cons c rest ih =>
    intro h
    have hc : env.execExec c = none := h c (List.mem_cons_self c rest)
    unfold execScripts
    rw [hc]
    simp only [List.map_cons, List.cons.injEq, true_and]
    exact ih (fun d hd => h d (List.mem_cons_of_mem c hd))

lemma execScripts_split (env : Env) (front : List String) (cmd msg : String)
    (rest : List String)
    (hf : ∀ c ∈ front, env.execExec c = none)
    (hc : env.execExec cmd = some msg) :
    execScripts env (front ++ cmd :: rest) =
      front.map (fun c => Event.exec "sh" ["-c", c]) ++
      [Event.exec "sh" ["-c", cmd], Event.setFailed msg] := by
  induction front with
  | nil =>
    simp only [List.nil_append, List.map_nil]
    unfold execScripts
    rw [hc]
  | cons c t ih =>
    have hcn : env.execExec c = none := hf c (List.mem_cons_self c t)
    simp only [List.cons_append, List.map_cons]
    unfold execScripts
    rw [hcn]
    simp only [List.cons_append, List.cons.injEq, true_and]
    exact ih (fun d hd => hf d (List.mem_cons_of_mem c hd))

lemma execScripts_setFailed_count (env : Env) :
    ∀ (cmds : List String), (execScripts env cmds).countP isSetFailed =
      if (firstScriptError env cmds).isSome then 1 else 0 := by
  intro cmds
  induction cmds with
  | nil => rfl
  | cons c rest ih =>
    unfold execScripts firstScriptError
    cases h : env.execExec c with
    | none => simp [List.countP_cons, isSetFailed, ih]
    | some m => simp [List.countP_cons, isSetFailed]

lemma execScripts_setFailed_mem (env : Env) :
    ∀ (cmds : List String) (msg : String), firstScriptError env cmds = some msg →
      Event.setFailed msg ∈ execScripts env cmds := by
  intro cmds
  induction cmds with
  | nil => intro msg h; simp [firstScriptError] at h
  | cons c rest ih =>
    intro msg h
    unfold firstScriptError at h
    unfold execScripts
    cases hc : env.execExec c with
    | none =>
      rw [hc] at h
      exact List.mem_cons_of_mem _ (ih msg h)
    | some m =>
      rw [hc] at h
      simp only [Option.some.injEq] at h
      subst h
      simp

lemma scriptStage_setFailed_count (env : Env) :
    (scriptStage env).countP isSetFailed =
      if (firstScriptError env (scriptsOf env)).isSome then 1 else 0 := by
  unfold scriptStage
  rw [List.countP_append, execScripts_setFailed_count env]
  have h0 : (if env.getInput "working-directory" ≠ "" then
      [Event.chdir (env.getInput "working-directory")] else []).countP isSetFailed = 0 := by
    split <;> rfl
  rw [h0, Nat.zero_add]

lemma setFailed_mem_scriptStage (env : Env) {msg : String}
    (h : firstScriptError env (scriptsOf env) = some msg) :
    Event.setFailed msg ∈ scriptStage env := by
  unfold scriptStage
  exact List.mem_append_right _ (execScripts_setFailed_mem env _ msg h)

lemma mem_take_after {α : Type} {x e : α} :
    ∀ (a b : List α) (n : Nat), e ∈ (a ++ x :: b).take n → e ∉ a →
      x ∈ (a ++ x :: b).take n := by
  intro a
  induction a with
  | nil =>
    intro b n he _
    cases n with
    | zero => simp at he
    | succ k => simp [List.take_succ_cons]
  | cons h t ih =>
    intro b n he hna
    cases n with
    | zero => simp at he
    | succ k =>
      simp only [List.cons_append, List.take_succ_cons, List.mem_cons] at he ⊢
      rcases he with rfl | he2
      · exact absurd (List.mem_cons_self _ _) hna
      · exact Or.inr (ih b k he2 (fun hx => hna (List.mem_cons_of_mem _ hx)))

lemma installSdk_reached (env : Env) (h : Event.installSdk ∈ run env) :
    (platformStage env).2 = none ∧ (runItems (configItems env)).2 = none := by
  cases hp : (platformStage env).2 with
  | some m =>
    exfalso
    have hpl := stagePipeline_platform_err hp
    rw [run_of_pipeline_err env m (by rw [hpl]), hpl] at h
    rcases List.mem_append.mp h with h1 | h1
    · exact config_only_not_mem (platformStage_config_events env)
        (show isConfigEvent Event.installSdk = false from rfl) h1
    · simp at h1
  | none =>
    cases hc : (runItems (configItems env)).2 with
    | some m =>
      exfalso
      have hpl := stagePipeline_config_err hp hc
      rw [run_of_pipeline_err env m (by rw [hpl]), hpl] at h
      rcases List.mem_append.mp h with h1 | h1
      · rcases List.mem_append.mp h1 with h2 | h2
        · exact config_only_not_mem (platformStage_config_events env)
            (show isConfigEvent Event.installSdk = false from rfl) h2
        · exact config_only_not_mem (runItems_config_events _)
            (show isConfigEvent Event.installSdk = false from rfl) h2
      · simp at h1
    | none => exact ⟨rfl, rfl⟩

lemma run_shape_after_config (env : Env)
    (hp : (platformStage env).2 = none) (hc : (runItems (configItems env)).2 = none) :
    ∃ tail, run env = (platformStage env).1 ++ (runItems (configItems env)).1 ++
        Event.installSdk :: tail ∧ (∀ e ∈ tail, isCheckEv e = false) := by
  cases hs : env.installAndroidSdk with
  | some m =>
    have hpl := stagePipeline_sdk_err hp hc hs
    refine ⟨[Event.killEmu, Event.setFailed m], ?_, ?_⟩
    · rw [run_of_pipeline_err env m (by rw [hpl]), hpl]
      simp [List.append_assoc]
    · intro e he
      rcases List.mem_cons.mp he with h1 | h1
      · subst h1; rfl
      · simp only [List.mem_singleton] at h1; subst h1; rfl
  | none =>
    have hpl := stagePipeline_post_sdk hp hc hs
    cases hl : env.launchEmulator with
    | some m =>
      have hpl2 : stagePipeline env =
          ((platformStage env).1 ++
            ((runItems (configItems env)).1 ++ [Event.installSdk, Event.launchEmu]),
            some m) := by rw [hpl, hl]
      refine ⟨[Event.launchEmu, Event.killEmu, Event.setFailed m], ?_, ?_⟩
      · rw [run_of_pipeline_err env m (by rw [hpl2]), hpl2]
        simp [List.append_assoc]
      · intro e he
        rcases List.mem_cons.mp he with h1 | h1
        · subst h1; rfl
        rcases List.mem_cons.mp h1 with h2 | h2
        · subst h2; rfl
        · simp only [List.mem_singleton] at h2; subst h2; rfl
    | none =>
      have hpl2 : stagePipeline env =
          ((platformStage env).1 ++
            ((runItems (configItems env)).1 ++ [Event.installSdk, Event.launchEmu]),
            none) := by rw [hpl, hl]
      refine ⟨Event.launchEmu :: (scriptStage env ++ [Event.killEmu]), ?_, ?_⟩
      · rw [run_of_pipeline_ok env (by rw [hpl2]), hpl2]
        simp [List.append_assoc]
      · intro e he
        rcases List.mem_cons.mp he with h1 | h1
        · subst h1; rfl
        rcases List.mem_append.mp h1 with h2 | h2
        · have := scriptStage_events env e h2
          cases e <;> simp_all [isScriptEvent, isCheckEv]
        · simp only [List.mem_singleton] at h2; subst h2; rfl

lemma config_event_in_run (env : Env)
    (hp : (platformStage env).2 = none) (hc : (runItems (configItems env)).2 = none)
    {it : Item} (hi : it ∈ configItems env) : itemEvent it ∈ run env := by
  obtain ⟨tail, hrun, -⟩ := run_shape_after_config env hp hc
  rw [hrun]
  refine List.mem_append.mpr (Or.inl (List.mem_append.mpr (Or.inr ?_)))
  rw [runItems_ok_events _ hc]
  exact List.mem_map_of_mem itemEvent hi

lemma config_not_sideEffect {e : Event} (h : isConfigEvent e = true) :
    isSideEffect e = false := by
  cases e <;> simp_all [isConfigEvent, isSideEffect]

lemma stagePipeline_ok_parts (env : Env) (h : (stagePipeline env).2 = none) :
    (platformStage env).2 = none ∧ (runItems (configItems env)).2 = none ∧
    env.installAndroidSdk = none ∧ env.launchEmulator = none := by
  cases hp : (platformStage env).2 with
  | some m => rw [stagePipeline_platform_err hp] at h; simp at h
  | none =>
    cases hc : (runItems (configItems env)).2 with
    | some m => rw [stagePipeline_config_err hp hc] at h; simp at h
    | none =>
      cases hs : env.installAndroidSdk with
      | some m => rw [stagePipeline_sdk_err hp hc hs] at h; simp at h
      | none =>
        refine ⟨rfl, rfl, rfl, ?_⟩
        rw [stagePipeline_post_sdk hp hc hs] at h
        exact h

/-- C1: on every lifecycle run, the Terminator `killEmulator` is invoked
exactly once, whichever exit path is taken — normal completion (line 184),
SDK-install / launch / boot / configuration failure or any other error caught
by the outer handler (line 187), and script failure (which is caught at lines
179-181 and then falls through to line 184).  The trace of `run` contains
exactly one `killEmu` event, and since the model is the completed sequential
execution, the run concludes only after that invocation has returned. -/
theorem killEmulator_exactly_once (env : Env) :
    (run env).count Event.killEmu = 1 := by
  cases h : (stagePipeline env).2 with
  | some m =>
    rw [run_of_pipeline_err env m h, List.count_append,
        List.count_eq_zero.mpr (stagePipeline_no_kill env)]
    simp [List.count_cons]
  | none =>
    rw [run_of_pipeline_ok env h, List.count_append, List.count_append,
        List.count_eq_zero.mpr (stagePipeline_no_kill env),
        List.count_eq_zero.mpr (scriptStage_no_kill env)]
    simp

/-- C2: whenever a script command exits with non-zero status (its `exec.exec`
oracle throws with message `msg`), the failure is reported via
`core.setFailed(msg)` and `killEmulator` still runs afterwards: the trace ends
with the `setFailed msg` event immediately followed by the `killEmu` event. -/
theorem script_failure_reported_then_kill (env : Env) (front : List String)
    (cmd msg : String) (rest : List String)
    (hok : (stagePipeline env).2 = none)
    (hs : scriptsOf env = front ++ cmd :: rest)
    (hf : ∀ c ∈ front, env.execExec c = none)
    (hcmd : env.execExec cmd = some msg) :
    ∃ l, run env = l ++ [Event.setFailed msg, Event.killEmu] := by
  refine ⟨(stagePipeline env).1 ++
    ((if env.getInput "working-directory" ≠ "" then
        [Event.chdir (env.getInput "working-directory")] else []) ++
      (front.map (fun c => Event.exec "sh" ["-c", c]) ++
        [Event.exec "sh" ["-c", cmd]])), ?_⟩
  rw [run_of_pipeline_ok env hok]
  unfold scriptStage
  rw [hs, execScripts_split env front cmd msg rest hf hcmd]
  simp [List.append_assoc]

/-- C2 witness: in `envScriptFail` the command `bad` fails with message
`boom`; the trace ends with `setFailed "boom"` followed by `killEmu`. -/
theorem script_failure_reported_then_kill_witness :
    ((stagePipeline envScriptFail).2 = none ∧
      scriptsOf envScriptFail = ["good"] ++ "bad" :: ["later"] ∧
      (∀ c ∈ ["good"], envScriptFail.execExec c = none) ∧
      envScriptFail.execExec "bad" = some "boom") ∧
    (∃ l, run envScriptFail = l ++ [Event.setFailed "boom", Event.killEmu]) :=
  ⟨⟨by decide, by decide, by decide, by decide⟩,
    script_failure_reported_then_kill envScriptFail ["good"] "bad" "boom" ["later"]
      (by decide) (by decide) (by decide) (by decide)⟩

/-- C3 counterexample: in `envBadApi` the `checkApiLevel` validator throws,
yet `killEmulator` IS invoked — the outer catch handler of lines 185-189
calls it unconditionally — refuting the claim that on a validation failure
no cleanup is performed and `killEmulator` is not invoked. -/
theorem validation_failure_no_cleanup_cex :
    envBadApi.checkApiLevel (envBadApi.getInput "api-level") = some "invalid api" ∧
    Event.killEmu ∈ run envBadApi :=
  ⟨rfl, by decide⟩

/-- C3 (amended): when a validation check throws, the run does abort before
any side-effecting component runs — no `installAndroidSdk`, no
`launchEmulator`, no script command — but the outer error handler still
invokes `killEmulator` exactly once (an idempotent no-op, as no process was
launched) before reporting the failure. -/
theorem validation_failure_aborts_but_still_kills (env : Env) (m : String)
    (hp : (platformStage env).2 = none)
    (hc : (runItems (configItems env)).2 = some m) :
    run env = (platformStage env).1 ++ (runItems (configItems env)).1 ++
        [Event.killEmu, Event.setFailed m] ∧
    Event.installSdk ∉ run env ∧ Event.launchEmu ∉ run env ∧
    (∀ t a, Event.exec t a ∉ run env) ∧
    (run env).count Event.killEmu = 1 := by
  have hpl := stagePipeline_config_err hp hc
  have hrun : run env = (platformStage env).1 ++ (runItems (configItems env)).1 ++
      [Event.killEmu, Event.setFailed m] := by
    rw [run_of_pipeline_err env m (by rw [hpl]), hpl]
  have hnomem : ∀ e : Event, isSideEffect e = true → e ∉ run env := by
    intro e he hmem
    have hcf : isConfigEvent e = false := by
      cases e <;> simp_all [isSideEffect, isConfigEvent]
    rw [hrun] at hmem
    rcases List.mem_append.mp hmem with h1 | h1
    · rcases List.mem_append.mp h1 with h2 | h2
      · exact config_only_not_mem (platformStage_config_events env) hcf h2
      · exact config_only_not_mem (runItems_config_events _) hcf h2
    · rcases List.mem_cons.mp h1 with h3 | h3
      · subst h3; simp [isSideEffect] at he
      · simp only [List.mem_singleton] at h3; subst h3; simp [isSideEffect] at he
  refine ⟨hrun, hnomem Event.installSdk rfl, hnomem Event.launchEmu rfl,
    fun t a => hnomem (Event.exec t a) rfl, ?_⟩
  rw [hrun, List.count_append, List.count_append,
      List.count_eq_zero.mpr
        (config_only_not_mem (platformStage_config_events env)
          (show isConfigEvent Event.killEmu = false from rfl)),
      List.count_eq_zero.mpr
        (config_only_not_mem (runItems_config_events _)
          (show isConfigEvent Event.killEmu = false from rfl))]
  simp [List.count_cons]

/-- C3 witness for the amended claim: in `envBadApi` the validation failure
leads to exactly one `killEmulator` invocation and no side-effecting call. -/
theorem validation_failure_aborts_but_still_kills_witness :
    ((platformStage envBadApi).2 = none ∧
      (runItems (configItems envBadApi)).2 = some "invalid api") ∧
    Event.installSdk ∉ run envBadApi ∧
    (run envBadApi).count Event.killEmu = 1 :=
  ⟨⟨by decide, by decide⟩,
    (validation_failure_aborts_but_still_kills envBadApi "invalid api"
      (by decide) (by decide)).2.1,
    (validation_failure_aborts_but_still_kills envBadApi "invalid api"
      (by decide) (by decide)).2.2.2.2⟩

/-- C4: whenever the side-effecting pipeline is reached (`installAndroidSdk`
appears in the trace), every validator invocation precedes every
side-effecting call: the trace splits into a prefix free of side effects
followed by a suffix free of validator calls, and all validators that the
source runs unconditionally (plus `checkEmulatorBuild` when the
`emulator-build` input is non-empty) have indeed been invoked, on the
documented arguments. -/
theorem validation_precedes_side_effects (env : Env)
    (h : Event.installSdk ∈ run env) :
    (∃ l1 l2, run env = l1 ++ l2 ∧ (∀ e ∈ l1, isSideEffect e = false) ∧
      (∀ e ∈ l2, isCheckEv e = false)) ∧
    Event.check "checkApiLevel" (env.getInput "api-level") ∈ run env ∧
    Event.check "checkTarget" (targetOf env) ∈ run env ∧
    Event.check "checkArch" (env.getInput "arch") ∈ run env ∧
    Event.check "checkForceAvdCreation" (env.getInput "force-avd-creation") ∈ run env ∧
    Event.check "checkDisableAnimations" (env.getInput "disable-animations") ∈ run env ∧
    Event.check "checkDisableSpellchecker" (env.getInput "disable-spellchecker") ∈ run env ∧
    Event.check "checkDisableLinuxHardwareAcceleration"
      (env.getInput "disable-linux-hw-accel") ∈ run env ∧
    Event.check "checkEnableHardwareKeyboard" (env.getInput "enable-hw-keyboard") ∈ run env ∧
    Event.check "checkChannel" (env.getInput "channel") ∈ run env ∧
    (env.getInput "emulator-build" ≠ "" →
      Event.check "checkEmulatorBuild" (env.getInput "emulator-build") ∈ run env) := by
  obtain ⟨hp, hc⟩ := installSdk_reached env h
  obtain ⟨tail, hrun, htail⟩ := run_shape_after_config env hp hc
  constructor
  · refine ⟨(platformStage env).1 ++ (runItems (configItems env)).1,
      Event.installSdk :: tail, by rw [hrun, List.append_assoc], ?_, ?_⟩
    · intro e he
      rcases List.mem_append.mp he with h1 | h1
      · exact config_not_sideEffect (platformStage_config_events env e h1)
      · exact config_not_sideEffect (runItems_config_events _ e h1)
    · intro e he
      rcases List.mem_cons.mp he with h1 | h1
      · subst h1; rfl
      · exact htail e h1
  refine ⟨?_, ?_, ?_, ?_, ?_, ?_, ?_, ?_, ?_, ?_⟩
  · exact config_event_in_run env hp hc
      (show Item.checkI "checkApiLevel" (env.getInput "api-level")
        (env.checkApiLevel (env.getInput "api-level")) ∈ configItems env by
        simp [configItems, configItemsFront])
  · exact config_event_in_run env hp hc
      (show Item.checkI "checkTarget" (targetOf env)
        (env.checkTarget (targetOf env)) ∈ configItems env by
        simp [configItems, configItemsFront])
  · exact config_event_in_run env hp hc
      (show Item.checkI "checkArch" (env.getInput "arch")
        (env.checkArch (env.getInput "arch")) ∈ configItems env by
        simp [configItems, configItemsFront])
  · exact config_event_in_run env hp hc
      (show Item.checkI "checkForceAvdCreation" (env.getInput "force-avd-creation")
        (env.checkForceAvdCreation (env.getInput "force-avd-creation")) ∈ configItems env by
        simp [configItems, configItemsFront])
  · exact config_event_in_run env hp hc
      (show Item.checkI "checkDisableAnimations" (env.getInput "disable-animations")
        (env.checkDisableAnimations (env.getInput "disable-animations")) ∈ configItems env by
        simp [configItems, configItemsFront])
  · exact config_event_in_run env hp hc
      (show Item.checkI "checkDisableSpellchecker" (env.getInput "disable-spellchecker")
        (env.checkDisableSpellchecker (env.getInput "disable-spellchecker")) ∈ configItems env by
        simp [configItems, configItemsFront])
  · exact config_event_in_run env hp hc
      (show Item.checkI "checkDisableLinuxHardwareAcceleration"
        (env.getInput "disable-linux-hw-accel")
        (env.checkDisableLinuxHardwareAcceleration (env.getInput "disable-linux-hw-accel"))
          ∈ configItems env by
        simp [configItems, configItemsFront])
  · exact config_event_in_run env hp hc
      (show Item.checkI "checkEnableHardwareKeyboard" (env.getInput "enable-hw-keyboard")
        (env.checkEnableHardwareKeyboard (env.getInput "enable-hw-keyboard")) ∈ configItems env by
        simp [configItems, configItemsFront])
  · exact config_event_in_run env hp hc
      (show Item.checkI "checkChannel" (env.getInput "channel")
        (env.checkChannel (env.getInput "channel")) ∈ configItems env by
        simp [configItems, configItemsFront])
  · intro hb
    exact config_event_in_run env hp hc
      (show Item.checkI "checkEmulatorBuild" (env.getInput "emulator-build")
        (env.checkEmulatorBuild (env.getInput "emulator-build")) ∈ configItems env by
        simp [configItems, configItemsFront, hb])

/-- C4 witness: in `baseEnv` the SDK installation is reached, and the
`checkApiLevel` invocation is in the trace (before it, by the split). -/
theorem validation_precedes_side_effects_witness :
    Event.installSdk ∈ run baseEnv ∧
    Event.check "checkApiLevel" (baseEnv.getInput "api-level") ∈ run baseEnv :=
  ⟨by decide, (validation_precedes_side_effects baseEnv (by decide)).2.1⟩

/-- C5: no script command is executed before `launchEmulator` has returned:
every prefix of the trace that contains an `exec` event already contains the
`launchEmu` event.  Since `launchEmulator` performs provisioning, boot
monitoring and post-boot configuration (spec §4), the caller's script never
runs before those have been attempted. -/
theorem no_script_before_launch (env : Env) (tool : String) (args : List String)
    (n : Nat) (h : Event.exec tool args ∈ (run env).take n) :
    Event.launchEmu ∈ (run env).take n := by
  have hmem : Event.exec tool args ∈ run env := List.take_subset n (run env) h
  cases hp2 : (stagePipeline env).2 with
  | some m =>
    exfalso
    rw [run_of_pipeline_err env m hp2] at hmem
    rcases List.mem_append.mp hmem with h1 | h1
    · rcases stagePipeline_events env _ h1 with hh | hh | hh
      · simp [isConfigEvent] at hh
      · exact Event.noConfusion hh
      · exact Event.noConfusion hh
    · simp at h1
  | none =>
    obtain ⟨hp, hc, hs, hl⟩ := stagePipeline_ok_parts env hp2
    have hpl := stagePipeline_post_sdk hp hc hs
    have hfst : (stagePipeline env).1 =
        (platformStage env).1 ++
          ((runItems (configItems env)).1 ++ [Event.installSdk, Event.launchEmu]) := by
      rw [hpl]
    have hshape : run env =
        ((platformStage env).1 ++ ((runItems (configItems env)).1 ++ [Event.installSdk])) ++
          Event.launchEmu :: (scriptStage env ++ [Event.killEmu]) := by
      rw [run_of_pipeline_ok env hp2, hfst]
      simp
    rw [hshape] at h ⊢
    refine mem_take_after _ _ n h ?_
    intro hmem2
    rcases List.mem_append.mp hmem2 with h1 | h1
    · have := platformStage_config_events env _ h1
      simp [isConfigEvent] at this
    rcases List.mem_append.mp h1 with h2 | h2
    · have := runItems_config_events _ _ h2
      simp [isConfigEvent] at this
    · simp at h2

/-- C5 witness: in `envTwoCmds`, the 50-element trace prefix contains the
first script command and also contains the `launchEmu` event. -/
theorem no_script_before_launch_witness :
    Event.exec "sh" ["-c", "a"] ∈ (run envTwoCmds).take 50 ∧
    Event.launchEmu ∈ (run envTwoCmds).take 50 :=
  ⟨by decide, no_script_before_launch envTwoCmds "sh" ["-c", "a"] 50 (by decide)⟩

/-- C6: every terminal failure — a platform / validation / SDK-install /
launch / boot error caught by the outer handler, or a failing script
command — surfaces exactly one `core.setFailed` call, carrying that error's
message (which is what makes the action's run status non-zero), and a fully
successful run surfaces none. -/
theorem single_failure_message (env : Env) :
    match (stagePipeline env).2, firstScriptError env (scriptsOf env) with
    | some m, _ => (run env).countP isSetFailed = 1 ∧ Event.setFailed m ∈ run env
    | none, some m => (run env).countP isSetFailed = 1 ∧ Event.setFailed m ∈ run env
    | none, none => (run env).countP isSetFailed = 0 := by
  have hzero : ((stagePipeline env).1).countP isSetFailed = 0 :=
    List.countP_eq_zero.mpr (by
      intro e he
      simp [stagePipeline_no_setFailed env e he])
  cases hp : (stagePipeline env).2 with
  | some m =>
    simp only
    rw [run_of_pipeline_err env m hp]
    constructor
    · rw [List.countP_append, hzero]
      rfl
    · simp
  | none =>
    rw [run_of_pipeline_ok env hp]
    cases hf : firstScriptError env (scriptsOf env) with
    | some m =>
      simp only
      constructor
      · rw [List.countP_append, hzero, List.countP_append,
            scriptStage_setFailed_count env, hf]
        rfl
      · exact List.mem_append.mpr (Or.inr (List.mem_append.mpr
          (Or.inl (setFailed_mem_scriptStage env hf))))
    | none =>
      simp only
      rw [List.countP_append, hzero, List.countP_append,
          scriptStage_setFailed_count env, hf]
      rfl

/-- C7 counterexample: the execution of `run` on `envTwoCmds` is unique
(the `forEach` callback is an async arrow function whose body contains no
`await`, so by JavaScript run-to-completion semantics each callback logs
synchronously during the iteration), and in it the per-command log lines
`"a"`, `"b"` appear exactly in the order of the parsed sequence, immediately
after `"Script:"` and directly before the SDK-installation step — the tail of
the 52-event trace is exactly the in-order logs followed by `installSdk` —
refuting the claim that there exists an execution in which they do not. -/
theorem script_logs_in_order_cex :
    (run envTwoCmds).drop 44 =
      [Event.log "Script:", Event.log "a", Event.log "b",
       Event.installSdk, Event.launchEmu,
       Event.exec "sh" ["-c", "a"], Event.exec "sh" ["-c", "b"],
       Event.killEmu] ∧
    (run envTwoCmds).length = 52 := by
  constructor
  · decide
  · decide

/-- C7 (amended): the per-command logging of the parsed script sequence does
use an unawaited asynchronous callback, but the callback body performs no
awaiting, so the logged command lines always appear synchronously, in the
order of the parsed sequence, immediately after the `Script:` header and
before the SDK-installation step; no execution exhibits out-of-order
logging. -/
theorem script_logging_synchronous (env : Env)
    (hp : (platformStage env).2 = none)
    (hc : (runItems (configItems env)).2 = none) :
    ∃ l1 l2, run env =
      l1 ++ (Event.log "Script:" :: (scriptsOf env).map Event.log) ++
        Event.installSdk :: l2 := by
  obtain ⟨tail, hrun, -⟩ := run_shape_after_config env hp hc
  refine ⟨(platformStage env).1 ++ (configItemsFront env).map itemEvent, tail, ?_⟩
  rw [hrun, runItems_ok_events _ hc]
  unfold configItems
  simp [List.append_assoc, Function.comp, itemEvent]

/-- C7 witness for the amended claim, on `envTwoCmds`. -/
theorem script_logging_synchronous_witness :
    ((platformStage envTwoCmds).2 = none ∧
      (runItems (configItems envTwoCmds)).2 = none) ∧
    (∃ l1 l2, run envTwoCmds =
      l1 ++ (Event.log "Script:" :: (scriptsOf envTwoCmds).map Event.log) ++
        Event.installSdk :: l2) :=
  ⟨⟨by decide, by decide⟩,
    script_logging_synchronous envTwoCmds (by decide) (by decide)⟩

/-- C8: on a host platform that is neither `darwin` nor `linux`, `run()`
throws the `Unsupported virtual machine` error before reading or validating
any input, and the outer error handler still invokes `killEmulator` even
though no process was ever launched: the whole trace is just the cleanup
call followed by the failure report. -/
theorem unsupported_platform_still_kills (env : Env)
    (h1 : env.platform ≠ "darwin") (h2 : env.platform ≠ "linux") :
    run env = [Event.killEmu, Event.setFailed unsupportedVmMsg] := by
  have hps : platformStage env = ([], some unsupportedVmMsg) := by
    unfold platformStage
    rw [if_neg h1, if_neg h2]
  have hp : (platformStage env).2 = some unsupportedVmMsg := by rw [hps]
  have hpl := stagePipeline_platform_err hp
  rw [run_of_pipeline_err env _ (by rw [hpl]), hpl, hps]
  rfl

/-- C8 witness: on the `win32` platform of `envOtherVm`. -/
theorem unsupported_platform_still_kills_witness :
    (envOtherVm.platform ≠ "darwin" ∧ envOtherVm.platform ≠ "linux") ∧
    run envOtherVm = [Event.killEmu, Event.setFailed unsupportedVmMsg] :=
  ⟨⟨by decide, by decide⟩,
    unsupported_platform_still_kills envOtherVm (by decide) (by decide)⟩

/-- C9: the `playstore` target input is canonicalized to
`google_apis_playstore` before validation, every other value is passed
through unchanged, and `checkTarget` is invoked on the canonicalized value:
the validator item recorded in the configuration block applies
`env.checkTarget` to `targetOf env`. -/
theorem playstore_target_canonicalized (env : Env) :
    targetOf env = (if env.getInput "target" = "playstore" then "google_apis_playstore"
      else env.getInput "target") ∧
    Item.checkI "checkTarget" (targetOf env) (env.checkTarget (targetOf env))
      ∈ configItems env := by
  refine ⟨rfl, ?_⟩
  simp [configItems, configItemsFront]

/-- C10: script commands run sequentially in parse order via
`exec.exec('sh', ['-c', cmd])`; on the first command that throws, all
remaining commands are skipped, the run is marked failed with that command's
message, and `killEmulator` still runs: the trace ends with the successful
commands in order, then the failing command, then `setFailed`, then
`killEmu`, with nothing after. -/
theorem script_first_failure_stops (env : Env) (front : List String)
    (cmd msg : String) (rest : List String)
    (hok : (stagePipeline env).2 = none)
    (hs : scriptsOf env = front ++ cmd :: rest)
    (hf : ∀ c ∈ front, env.execExec c = none)
    (hcmd : env.execExec cmd = some msg) :
    ∃ l, run env = l ++ front.map (fun c => Event.exec "sh" ["-c", c]) ++
      [Event.exec "sh" ["-c", cmd], Event.setFailed msg, Event.killEmu] := by
  refine ⟨(stagePipeline env).1 ++
    (if env.getInput "working-directory" ≠ "" then
      [Event.chdir (env.getInput "working-directory")] else []), ?_⟩
  rw [run_of_pipeline_ok env hok]
  unfold scriptStage
  rw [hs, execScripts_split env front cmd msg rest hf hcmd]
  simp [List.append_assoc]

/-- C10 witness: in `envScriptFail` the trace ends with `good` executed, then
the failing `bad`, then the failure report and the cleanup; `later` is
skipped. -/
theorem script_first_failure_stops_witness :
    ((stagePipeline envScriptFail).2 = none ∧
      scriptsOf envScriptFail = ["good"] ++ "bad" :: ["later"] ∧
      (∀ c ∈ ["good"], envScriptFail.execExec c = none) ∧
      envScriptFail.execExec "bad" = some "boom") ∧
    (∃ l, run envScriptFail = l ++
      ["good"].map (fun c => Event.exec "sh" ["-c", c]) ++
      [Event.exec "sh" ["-c", "bad"], Event.setFailed "boom", Event.killEmu]) :=
  ⟨⟨by decide, by decide, by decide, by decide⟩,
    script_first_failure_stops envScriptFail ["good"] "bad" "boom" ["later"]
      (by decide) (by decide) (by decide) (by decide)⟩

end AER
